import Mathlib

/-!
# Verification of msd2smf

A shallow embedding of `msd2smf.py`, a converter from the MSD binary music
container to Standard MIDI Files (SMF), together with proofs about it.

Byte strings are modelled as `List Nat` (each element a byte value).
Python exceptions are modelled with `Except ConvError`:
* `badMagic` models the `ValueError("Invalid MSD header")` raise;
* `structError` models `struct.error` from `struct.unpack_from` on a
  too-short buffer and from `struct.pack('>h', v)` on an out-of-range value;
* `indexError` models `IndexError` from indexing an empty byte string
  (`data[0]` in `to_smf_sysex`) and from `packets[-1]` on an empty list.
-/

namespace Msd2Smf

/-- The kinds of Python exceptions the converter can raise. -/
inductive ConvError where
  | badMagic
  | structError
  | indexError
  | packError
deriving DecidableEq

/-- Little-endian unsigned 32-bit read at `off`, models
`struct.unpack("<I", ...)` applied to bytes `off .. off+3` (the bounds check,
where the source has one, is made at the call site). -/
def readU32LE (bs : List Nat) (off : Nat) : Nat :=
  bs.getD off 0 + 256 * bs.getD (off + 1) 0 + 65536 * bs.getD (off + 2) 0 +
    16777216 * bs.getD (off + 3) 0

/-- Models `struct.unpack_from("<I", bs, off)`: raises `struct.error` when
fewer than 4 bytes are available at `off`. -/
def unpackU32 (bs : List Nat) (off : Nat) : Except ConvError Nat :=
  if off + 4 ≤ bs.length then .ok (readU32LE bs off) else .error .structError

/-- Big-endian 4-byte encoding of a length, models `struct.pack(">I", n)`
for `n < 2^32` (the only lengths that arise here). -/
def packU32BE (n : Nat) : List Nat :=
  [n / 16777216 % 256, n / 65536 % 256, n / 256 % 256, n % 256]

/-- Models `struct.pack(">h", v)` for a non-negative `v`: a big-endian
signed 16-bit pack, which raises `struct.error` when `v > 0x7FFF`. -/
def packI16BE (v : Nat) : Except ConvError (List Nat) :=
  if v ≤ 0x7FFF then .ok [v / 256, v % 256] else .error .packError

/-- `to_smf_chunk(name, data)`: `name || u32be(len(data)) || data`. -/
def to_smf_chunk (name : List Nat) (data : List Nat) : List Nat :=
  name ++ packU32BE data.length ++ data

/-- Loop of `to_smf_ber`: prepend continuation bytes (7 bits each, high bit
set) for the remaining `value`, most significant first. -/
def berAux (value : Nat) (buffer : List Nat) : List Nat :=
  if h : value > 0 then
    berAux (value >>> 7) (((value &&& 0x7F) ||| 0x80) :: buffer)
  else
    buffer
termination_by value
decreasing_by
  simp only [Nat.shiftRight_eq_div_pow]
  exact Nat.div_lt_self h (by norm_num)

/-- `to_smf_ber(value)` for an integer argument: MIDI variable-length
quantity (VLQ) encoding. (The source also maps `None` to `b''`; that path is
only reachable through `to_smf_metaevent`, which is modelled directly.) -/
def to_smf_ber (value : Nat) : List Nat :=
  berAux (value >>> 7) [value &&& 0x7F]

/-- `to_smf_metaevent(event_type, data, deltatime)`:
`vlq(deltatime) || 0xFF || event_type || vlq(len(data)) || data`, with
`data = None` (absent) encoded as length `vlq(0)` and no body. -/
def to_smf_metaevent (event_type : Nat) (data : Option (List Nat))
    (deltatime : Nat) : List Nat :=
  to_smf_ber deltatime ++ [0xFF, event_type] ++
    (match data with
     | none => to_smf_ber 0
     | some d => to_smf_ber d.length ++ d)

/-- `to_smf_sysex(data, deltatime)`: drops a leading `0xF0` from `data`,
then `vlq(deltatime) || 0xF0 || vlq(len(data)) || data`. The source indexes
`data[0]` unconditionally, so an empty `data` raises `IndexError` (`none`). -/
def to_smf_sysex (data : List Nat) (deltatime : Nat) : Option (List Nat) :=
  match data with
  | [] => none
  | b :: rest =>
    let d := if b = 0xF0 then rest else b :: rest
    some (to_smf_ber deltatime ++ [0xF0] ++ to_smf_ber d.length ++ d)

/-- `to_smf_shortmes(data, deltatime)`: `vlq(deltatime) || data`. -/
def to_smf_shortmes (data : List Nat) (deltatime : Nat) : List Nat :=
  to_smf_ber deltatime ++ data

/-- `to_smf(tracks, timebase)`: `MThd` header chunk
(`struct.pack('>hhh', format, numTracks, timebase)`) followed by one `MTrk`
chunk per track. `struct.pack('>h', timebase)` raises for
`timebase > 0x7FFF`. -/
def to_smf (tracks : List (List Nat)) (timebase : Nat) :
    Except ConvError (List Nat) :=
  match packI16BE (if tracks.length > 1 then 1 else 0),
        packI16BE tracks.length, packI16BE timebase with
  | .ok a, .ok b, .ok c =>
    .ok (tracks.foldl (fun acc t => acc ++ to_smf_chunk [0x4D, 0x54, 0x72, 0x6B] t)
           (to_smf_chunk [0x4D, 0x54, 0x68, 0x64] (a ++ b ++ c)))
  | .error e, _, _ => .error e
  | _, .error e, _ => .error e
  | _, _, .error e => .error e

/-- Standard MIDI VLQ decoding (from the spec: 7 bits per byte, most
significant bytes first, every byte except the last has the high bit set);
`acc` holds the bits decoded so far. -/
def vlqDecodeAux : List Nat → Nat → Option Nat
  | [], _ => none
  | [b], acc => if b &&& 0x80 = 0 then some (acc * 128 + (b &&& 0x7F)) else none
  | b :: c :: rest, acc =>
    if b &&& 0x80 = 0x80 then vlqDecodeAux (c :: rest) (acc * 128 + (b &&& 0x7F))
    else none

/-- Standard MIDI VLQ decoding of a whole byte string. -/
def vlqDecode (bs : List Nat) : Option Nat :=
  vlqDecodeAux bs 0

/-- `cmd_len_tbl`: MIDI message lengths indexed by `(status >> 4) & 7`. -/
def cmd_len_tbl : List Nat := [3, 3, 2, 3, 2, 2, 3, 0]

/-- `(n + 3) & ~3` for a non-negative `n`: round up to a multiple of 4. -/
def roundUp4 (n : Nat) : Nat := (n + 3) / 4 * 4

/-- The loop body of `conv_mes_safe`: walks `data` from `offset` in 12-byte
records, threading the running `deltatime` and accumulating the encoded
events in `events` (joined by the wrapper, as in `b''.join(events)`). -/
def convMesSafeAux (data : List Nat) (offset deltatime : Nat)
    (events : List (List Nat)) : Except ConvError (List (List Nat) × Nat) :=
  if h : offset + 12 ≤ data.length then
    let chunk := (data.drop offset).take 12
    let offset1 := offset + 12
    let dtime := readU32LE chunk 0
    let param := readU32LE chunk 8
    let dt := deltatime + dtime
    let event_type := chunk.getD 11 0 &&& 0xBF
    if event_type = 0 ∧ chunk.getD 8 0 ≠ 0xFF then
      let cmd := chunk.getD 8 0
      let length := cmd_len_tbl.getD ((cmd >>> 4) &&& 7) 0
      let msg := (chunk.drop 8).take length
      convMesSafeAux data offset1 0 (events ++ [to_smf_shortmes msg dt])
    else if event_type = 1 then
      let tempo := [chunk.getD 10 0, chunk.getD 9 0, chunk.getD 8 0]
      convMesSafeAux data offset1 0 (events ++ [to_smf_metaevent 0x51 (some tempo) dt])
    else if event_type = 0x80 then
      let sysex_len := param &&& 0xFFFFFF
      if offset1 + sysex_len ≤ data.length then
        match to_smf_sysex ((data.drop offset1).take sysex_len) dt with
        | none => .error .indexError
        | some ev => convMesSafeAux data (offset1 + roundUp4 sysex_len) 0 (events ++ [ev])
      else
        convMesSafeAux data offset1 0 events
    else if chunk.getD 11 0 &&& 0x80 ≠ 0 then
      convMesSafeAux data (offset1 + roundUp4 (param &&& 0xFFFFFF)) dt events
    else
      convMesSafeAux data offset1 dt events
  else
    .ok (events, deltatime)
termination_by data.length - offset
decreasing_by all_goals omega

/-- `conv_mes_safe(data, initial_deltatime)`: decode a packet payload into
the joined event byte string and the trailing running delta-time. -/
def conv_mes_safe (data : List Nat) (initial_deltatime : Nat) :
    Except ConvError (List Nat × Nat) :=
  match convMesSafeAux data 0 initial_deltatime [] with
  | .error e => .error e
  | .ok (events, deltatime) => .ok (events.flatten, deltatime)

/-- One MSD packet: a directory entry plus its payload slice. -/
structure Packet where
  thisId : Nat
  nextId : Nat
  length : Nat
  payload : List Nat
deriving DecidableEq

/-- The packet-directory loop of `convert_msd_to_midi`: reads `count`
16-byte directory entries starting at `offset`, each followed by its payload
(`msd[offset:offset+length]`, a Python slice, hence silently truncated at the
end of the input) and 0-3 alignment padding bytes.
`struct.unpack_from("<IIII", ...)` raises `struct.error` when fewer than 16
bytes remain for an entry. -/
def parsePackets (msd : List Nat) (offset : Nat) :
    Nat → Except ConvError (List Packet)
  | 0 => .ok []
  | n + 1 =>
    if offset + 16 ≤ msd.length then
      let pid := readU32LE msd offset
      let nid := readU32LE msd (offset + 4)
      let length := readU32LE msd (offset + 12)
      let payload := (msd.drop (offset + 16)).take length
      match parsePackets msd (offset + 16 + roundUp4 length) n with
      | .error e => .error e
      | .ok rest => .ok (⟨pid, nid, length, payload⟩ :: rest)
    else .error .structError

/-- The bytes of the ASCII text `loopstart`. -/
def loopstartText : List Nat := [108, 111, 111, 112, 115, 116, 97, 114, 116]

/-- The bytes of the ASCII text `loopend`. -/
def loopendText : List Nat := [108, 111, 111, 112, 101, 110, 100]

/-- Assembler state: the `track_data` list, the running `deltatime`, and the
`loop` flag. -/
abbrev AsmState := List (List Nat) × Nat × Bool

/-- The payload-processing half of the per-packet loop body: a zero-length
packet appends `b''`; otherwise the payload is decoded with the current
running delta-time and the returned delta-time is carried on. -/
def processPacket (st : AsmState) (pkt : Packet) : Except ConvError AsmState :=
  if pkt.length = 0 then .ok (st.1 ++ [[]], st.2.1, st.2.2)
  else
    match conv_mes_safe pkt.payload st.2.1 with
    | .error e => .error e
    | .ok (mes, dt) => .ok (st.1 ++ [mes], dt, st.2.2)

/-- The per-packet loop body of `convert_msd_to_midi`: `lastNext` is
`packets[-1]["Next ID"]`, which the source evaluates inside the loop body
(so on an empty packet list it is never evaluated; `none` here models the
`IndexError` that evaluation would raise). When the packet's `thisId`
matches, a `loopstart` marker is appended with the running delta-time,
which is reset, and the loop flag is set. -/
def trackStep (lastNext : Option Nat) (st : AsmState) (pkt : Packet) :
    Except ConvError AsmState :=
  match lastNext with
  | none => .error .indexError
  | some lnid =>
    processPacket
      (if pkt.thisId = lnid then
        (st.1 ++ [to_smf_metaevent 0x06 (some loopstartText) st.2.1], 0, true)
       else st) pkt

/-- Fold of `trackStep` over the packet list, mirroring the `for` loop. -/
def assembleAux (lastNext : Option Nat) :
    List Packet → AsmState → Except ConvError AsmState
  | [], st => .ok st
  | pkt :: rest, st =>
    match trackStep lastNext st pkt with
    | .error e => .error e
    | .ok st1 => assembleAux lastNext rest st1

/-- Lines 122-145 of the source: build the `track_data` list from the
packets — the per-packet loop, then the `loopend` marker when the loop flag
was set, then the unconditional end-of-track meta event. -/
def buildTrackData (packets : List Packet) :
    Except ConvError (List (List Nat)) :=
  match assembleAux (packets.getLast?.map Packet.nextId) packets ([], 0, false) with
  | .error e => .error e
  | .ok (td, dt, loopFlag) =>
    let p := if loopFlag then
               (td ++ [to_smf_metaevent 0x06 (some loopendText) dt], 0)
             else (td, dt)
    .ok (p.1 ++ [to_smf_metaevent 0x2F none p.2])

/-- The magic bytes `b"WMSD"`. -/
def msdMagic : List Nat := [0x57, 0x4D, 0x53, 0x44]

/-- Sample input: valid magic, timebase 480, one directory entry declaring a
100-byte payload although no payload bytes remain after the entry. -/
def sampleOverrun : List Nat :=
  [0x57, 0x4D, 0x53, 0x44, 0xE0, 0x01, 0, 0, 0, 0, 0, 0, 0, 0, 0, 0,
   1, 0, 0, 0,
   1, 0, 0, 0, 2, 0, 0, 0, 0, 0, 0, 0, 100, 0, 0, 0]

/-- Sample input: valid magic, timebase 480, packet count 0. -/
def sampleEmptyDir : List Nat :=
  [0x57, 0x4D, 0x53, 0x44, 0xE0, 0x01, 0, 0, 0, 0, 0, 0, 0, 0, 0, 0,
   0, 0, 0, 0]

/-- Sample input: valid magic, timebase 0x8000 (readable as u32 but out of
range for `struct.pack('>h', ...)`), packet count 0. -/
def sampleBadTimebase : List Nat :=
  [0x57, 0x4D, 0x53, 0x44, 0x00, 0x80, 0, 0, 0, 0, 0, 0, 0, 0, 0, 0,
   0, 0, 0, 0]

/-- `convert_msd_to_midi(msd_bytes)`: the conversion entry point. Checks the
magic, reads `timebase` (offset 4) and `packet_count` (offset 0x10), parses
the packet directory from offset 0x14, builds the track data, and frames the
single joined track with `to_smf`. -/
def convert_msd_to_midi (msd : List Nat) : Except ConvError (List Nat) :=
  if msd.take 4 ≠ msdMagic then .error .badMagic
  else if 4 + 4 ≤ msd.length then
    let timebase := readU32LE msd 4
    if 0x10 + 4 ≤ msd.length then
      let packet_count := readU32LE msd 0x10
      match parsePackets msd 0x14 packet_count with
      | .error e => .error e
      | .ok packets =>
        match buildTrackData packets with
        | .error e => .error e
        | .ok track_data => to_smf [track_data.flatten] timebase
    else .error .structError
  else .error .structError

/-! ## VLQ encoding facts -/

/-- Bit facts about a single 7-bit value, by exhaustive check. -/
lemma sevenBitFacts : ∀ a : Nat, a < 128 →
    ((a ||| 128) &&& 0x80 = 0x80) ∧ ((a ||| 128) &&& 0x7F = a) ∧
    (a &&& 0x80 = 0) ∧ (a &&& 0x7F = a) := by decide

/-- The low 7 bits of `w` form a value below 128. -/
lemma and127_lt (w : Nat) : w &&& 0x7F < 128 :=
  lt_of_le_of_lt Nat.and_le_right (by norm_num)

/-- Masking with `0x7F` is reduction modulo 128. -/
lemma and127_eq_mod (w : Nat) : w &&& 0x7F = w % 128 := by
  have h := Nat.and_pow_two_sub_one_eq_mod w 7
  norm_num at h
  exact h

/-- Shifting right by 7 is division by 128. -/
lemma shiftRight7_eq_div (w : Nat) : w >>> 7 = w / 128 := by
  have h := Nat.shiftRight_eq_div_pow w 7
  norm_num at h
  exact h

/-- Decoding the continuation bytes `berAux` prepends for `w` onto a
non-empty tail accumulates exactly `w`. -/
lemma vlqDecodeAux_berAux (w : Nat) :
    ∀ buf : List Nat, buf ≠ [] →
      vlqDecodeAux (berAux w buf) 0 = vlqDecodeAux buf w := by
  induction w using Nat.strong_induction_on with
  | _ w ih =>
    intro buf hbuf
    by_cases hw : 0 < w
    · have hlt : w >>> 7 < w := by
        rw [shiftRight7_eq_div]
        exact Nat.div_lt_self hw (by norm_num)
      have hstep : berAux w buf =
          berAux (w >>> 7) (((w &&& 0x7F) ||| 0x80) :: buf) := by
        rw [berAux]
        exact dif_pos hw
      rw [hstep, ih _ hlt _ (by simp)]
      obtain ⟨c, rest, rfl⟩ : ∃ c rest, buf = c :: rest := by
        cases buf with
        | nil => exact absurd rfl hbuf
        | cons c rest => exact ⟨c, rest, rfl⟩
      obtain ⟨h1, h2, -, -⟩ := sevenBitFacts _ (and127_lt w)
      show (if (w &&& 0x7F ||| 0x80) &&& 0x80 = 0x80 then
              vlqDecodeAux (c :: rest)
                ((w >>> 7) * 128 + ((w &&& 0x7F ||| 0x80) &&& 0x7F))
            else none) = vlqDecodeAux (c :: rest) w
      rw [if_pos (by exact_mod_cast h1), h2]
      have : (w >>> 7) * 128 + (w &&& 0x7F) = w := by
        rw [shiftRight7_eq_div, and127_eq_mod]
        omega
      rw [this]
    · have hw0 : w = 0 := by omega
      subst hw0
      have : berAux 0 buf = buf := by
        rw [berAux]
        exact dif_neg hw
      rw [this]

/-- Decoding any VLQ encoding produced by `to_smf_ber` recovers the value. -/
lemma vlq_decode_encode (v : Nat) : vlqDecode (to_smf_ber v) = some v := by
  unfold vlqDecode to_smf_ber
  rw [vlqDecodeAux_berAux _ _ (by simp)]
  obtain ⟨-, -, h3, h4⟩ := sevenBitFacts _ (and127_lt v)
  show (if (v &&& 0x7F) &&& 0x80 = 0 then
          some ((v >>> 7) * 128 + ((v &&& 0x7F) &&& 0x7F))
        else none) = some v
  rw [if_pos (by exact_mod_cast h3), h4]
  have : (v >>> 7) * 128 + (v &&& 0x7F) = v := by
    rw [shiftRight7_eq_div, and127_eq_mod]
    omega
  rw [this]

/-- C3: for every `v` in `[0, 0x0FFFFFFF]`, decoding the bytes produced by
the VLQ encoder `to_smf_ber v` with the standard MIDI variable-length
quantity rule recovers `v` exactly; moreover `to_smf_ber 0 = [0x00]`,
`to_smf_ber 127 = [0x7F]` and `to_smf_ber 128 = [0x81, 0x00]`. -/
theorem C3_vlq_roundtrip (v : Nat) (hv : v ≤ 0x0FFFFFFF) :
    vlqDecode (to_smf_ber v) = some v ∧
    to_smf_ber 0 = [0x00] ∧ to_smf_ber 127 = [0x7F] ∧
    to_smf_ber 128 = [0x81, 0x00] := by
  refine ⟨vlq_decode_encode v, ?_, ?_, ?_⟩ <;>
    simp +decide [to_smf_ber, berAux]

/-- C3 witness: the round-trip theorem instantiated at `v = 123456`. -/
theorem C3_vlq_roundtrip_witness :
    123456 ≤ 0x0FFFFFFF ∧
    (vlqDecode (to_smf_ber 123456) = some 123456 ∧
     to_smf_ber 0 = [0x00] ∧ to_smf_ber 127 = [0x7F] ∧
     to_smf_ber 128 = [0x81, 0x00]) :=
  ⟨by norm_num, C3_vlq_roundtrip 123456 (by norm_num)⟩

/-! ## Single-record behaviour of the event decoder

Each lemma characterises one branch of the `conv_mes_safe` loop body for the
record found at `offset` (the 12-byte window `(data.drop offset).take 12`). -/

/-- Fewer than 12 bytes remain: the loop stops and returns the accumulated
events and the running delta-time. -/
lemma convMesSafeAux_stop (data : List Nat) (offset deltatime : Nat)
    (events : List (List Nat)) (h : ¬ offset + 12 ≤ data.length) :
    convMesSafeAux data offset deltatime events = .ok (events, deltatime) := by
  rw [convMesSafeAux]
  exact dif_neg h

/-- Tempo record (`eventType = 1`): emits a `0x51` meta event whose data is
record bytes 10, 9, 8 in that order, and resets the running delta-time. -/
lemma convMesSafeAux_tempo (data : List Nat) (offset deltatime : Nat)
    (events : List (List Nat)) (h12 : offset + 12 ≤ data.length)
    (hET : ((data.drop offset).take 12).getD 11 0 &&& 0xBF = 1) :
    convMesSafeAux data offset deltatime events =
      convMesSafeAux data (offset + 12) 0
        (events ++ [to_smf_metaevent 0x51
          (some [((data.drop offset).take 12).getD 10 0,
                 ((data.drop offset).take 12).getD 9 0,
                 ((data.drop offset).take 12).getD 8 0])
          (deltatime + readU32LE ((data.drop offset).take 12) 0)]) := by
  rw [convMesSafeAux, dif_pos h12]
  simp only [hET]
  norm_num

/-- SysEx record (`eventType = 0x80`) whose declared length exceeds the
bytes remaining: no event, the cursor advances only past the 12-byte record,
and the running delta-time is reset to 0. -/
lemma convMesSafeAux_sysex_skip (data : List Nat) (offset deltatime : Nat)
    (events : List (List Nat)) (h12 : offset + 12 ≤ data.length)
    (hET : ((data.drop offset).take 12).getD 11 0 &&& 0xBF = 0x80)
    (hInsuf : ¬ offset + 12 + (readU32LE ((data.drop offset).take 12) 8 &&& 0xFFFFFF)
        ≤ data.length) :
    convMesSafeAux data offset deltatime events =
      convMesSafeAux data (offset + 12) 0 events := by
  rw [convMesSafeAux, dif_pos h12]
  simp only [hET]
  rw [if_pos trivial, if_neg hInsuf]
  norm_num

/-- SysEx record with declared length 0: the remaining-bytes check passes
vacuously, `to_smf_sysex` is applied to the empty slice, and its
unconditional `data[0]` raises `IndexError`. -/
lemma convMesSafeAux_sysex_empty (data : List Nat) (offset deltatime : Nat)
    (events : List (List Nat)) (h12 : offset + 12 ≤ data.length)
    (hET : ((data.drop offset).take 12).getD 11 0 &&& 0xBF = 0x80)
    (hzero : readU32LE ((data.drop offset).take 12) 8 &&& 0xFFFFFF = 0) :
    convMesSafeAux data offset deltatime events = .error .indexError := by
  rw [convMesSafeAux, dif_pos h12]
  simp only [hET, hzero]
  rw [if_pos trivial, if_pos (show offset + 12 + 0 ≤ data.length by omega)]
  simp [to_smf_sysex]

/-- Unknown extended block (none of the explicit branches, classification
byte's high bit set): `param & 0xFFFFFF` bytes (rounded up to a multiple of
4) are skipped, no event, and the delta-time accumulates. -/
lemma convMesSafeAux_skip_block (data : List Nat) (offset deltatime : Nat)
    (events : List (List Nat)) (h12 : offset + 12 ≤ data.length)
    (hET0 : ¬(((data.drop offset).take 12).getD 11 0 &&& 0xBF = 0 ∧
        ((data.drop offset).take 12).getD 8 0 ≠ 0xFF))
    (hET1 : ((data.drop offset).take 12).getD 11 0 &&& 0xBF ≠ 1)
    (hET80 : ((data.drop offset).take 12).getD 11 0 &&& 0xBF ≠ 0x80)
    (hHigh : ((data.drop offset).take 12).getD 11 0 &&& 0x80 ≠ 0) :
    convMesSafeAux data offset deltatime events =
      convMesSafeAux data
        (offset + 12 + roundUp4 (readU32LE ((data.drop offset).take 12) 8 &&& 0xFFFFFF))
        (deltatime + readU32LE ((data.drop offset).take 12) 0) events := by
  rw [convMesSafeAux, dif_pos h12]
  rw [if_neg hET0, if_neg hET1, if_neg hET80, if_pos hHigh]

/-- Short-message record (`eventType = 0` and byte 8 of the record is not
`0xFF`): emits the raw message (length looked up from the status nibble)
with the accumulated delta-time and resets the running delta-time to 0. -/
lemma convMesSafeAux_shortmes (data : List Nat) (offset deltatime : Nat)
    (events : List (List Nat)) (h12 : offset + 12 ≤ data.length)
    (hET : ((data.drop offset).take 12).getD 11 0 &&& 0xBF = 0)
    (hC8 : ((data.drop offset).take 12).getD 8 0 ≠ 0xFF) :
    convMesSafeAux data offset deltatime events =
      convMesSafeAux data (offset + 12) 0
        (events ++ [to_smf_shortmes
          (List.take (cmd_len_tbl.getD
              ((((data.drop offset).take 12).getD 8 0 >>> 4) &&& 7) 0)
            (List.drop 8 ((data.drop offset).take 12)))
          (deltatime + readU32LE ((data.drop offset).take 12) 0)]) := by
  rw [convMesSafeAux, dif_pos h12, if_pos ⟨hET, hC8⟩]

/-- SysEx record whose declared body length fits in the remaining bytes and
whose body slice is accepted by `to_smf_sysex`: emits the SysEx event with
the accumulated delta-time, advances the cursor by the body length rounded
up to a multiple of 4, and resets the running delta-time to 0. -/
lemma convMesSafeAux_sysex_ok (data : List Nat) (offset deltatime : Nat)
    (events : List (List Nat)) (h12 : offset + 12 ≤ data.length)
    (hET : ((data.drop offset).take 12).getD 11 0 &&& 0xBF = 0x80)
    (hSuf : offset + 12 + (readU32LE ((data.drop offset).take 12) 8 &&& 0xFFFFFF)
        ≤ data.length)
    (ev : List Nat)
    (hev : to_smf_sysex
        ((data.drop (offset + 12)).take
          (readU32LE ((data.drop offset).take 12) 8 &&& 0xFFFFFF))
        (deltatime + readU32LE ((data.drop offset).take 12) 0) = some ev) :
    convMesSafeAux data offset deltatime events =
      convMesSafeAux data
        (offset + 12 + roundUp4 (readU32LE ((data.drop offset).take 12) 8 &&& 0xFFFFFF))
        0 (events ++ [ev]) := by
  rw [convMesSafeAux, dif_pos h12]
  simp only [hET]
  rw [if_pos trivial, if_pos hSuf]
  simp only [hev]
  norm_num

/-- Packet boundary: a non-empty packet is decoded starting from the
current running delta-time, and the trailing delta-time it returns becomes
the assembler's new running delta-time. -/
lemma processPacket_carry (td : List (List Nat)) (dt : Nat) (flag : Bool)
    (pkt : Packet) (mes : List Nat) (dtOut : Nat)
    (hL : pkt.length ≠ 0)
    (hconv : conv_mes_safe pkt.payload dt = .ok (mes, dtOut)) :
    processPacket (td, dt, flag) pkt = .ok (td ++ [mes], dtOut, flag) := by
  simp [processPacket, hL, hconv]

/-- No-op record (none of the explicit branches, classification byte's high
bit clear): only its `dtime` accumulates into the running delta-time. -/
lemma convMesSafeAux_noop (data : List Nat) (offset deltatime : Nat)
    (events : List (List Nat)) (h12 : offset + 12 ≤ data.length)
    (hET0 : ¬(((data.drop offset).take 12).getD 11 0 &&& 0xBF = 0 ∧
        ((data.drop offset).take 12).getD 8 0 ≠ 0xFF))
    (hET1 : ((data.drop offset).take 12).getD 11 0 &&& 0xBF ≠ 1)
    (hET80 : ((data.drop offset).take 12).getD 11 0 &&& 0xBF ≠ 0x80)
    (hHigh : ((data.drop offset).take 12).getD 11 0 &&& 0x80 = 0) :
    convMesSafeAux data offset deltatime events =
      convMesSafeAux data (offset + 12)
        (deltatime + readU32LE ((data.drop offset).take 12) 0) events := by
  rw [convMesSafeAux, dif_pos h12]
  rw [if_neg hET0, if_neg hET1, if_neg hET80, if_neg (not_not_intro hHigh)]

/-- C6: a 12-byte record whose classification byte (offset 11 masked with
`0xBF`) equals 1 makes the decoder emit a `0x51` meta event whose 3 data
bytes are the record's bytes at offsets 10, 9, 8 in that order, with the
accumulated delta-time, and reset the running delta-time to 0. -/
theorem C6_tempo_record (r : List Nat) (init : Nat) (hlen : r.length = 12)
    (hET : r.getD 11 0 &&& 0xBF = 1) :
    conv_mes_safe r init =
      .ok (to_smf_metaevent 0x51 (some [r.getD 10 0, r.getD 9 0, r.getD 8 0])
        (init + readU32LE r 0), 0) := by
  have htake : List.take 12 r = r := List.take_of_length_le (by omega)
  have hchunk : (r.drop 0).take 12 = r := by rw [List.drop_zero, htake]
  unfold conv_mes_safe
  rw [convMesSafeAux_tempo r 0 init [] (by omega) (by rw [hchunk]; exact hET)]
  rw [convMesSafeAux_stop _ _ _ _ (by omega)]
  simp [hchunk, htake]

/-- C6 witness: a record with bytes `0x01, 0x02, 0x03` at offsets 8, 9, 10
produces tempo meta data `[0x03, 0x02, 0x01]`. -/
theorem C6_tempo_record_witness :
    ([0, 0, 0, 0, 0, 0, 0, 0, 1, 2, 3, 1] : List Nat).length = 12 ∧
    ([0, 0, 0, 0, 0, 0, 0, 0, 1, 2, 3, 1] : List Nat).getD 11 0 &&& 0xBF = 1 ∧
    conv_mes_safe [0, 0, 0, 0, 0, 0, 0, 0, 1, 2, 3, 1] 0 =
      .ok (to_smf_metaevent 0x51 (some [3, 2, 1]) 0, 0) := by
  refine ⟨by decide, by decide, ?_⟩
  have h := C6_tempo_record [0, 0, 0, 0, 0, 0, 0, 0, 1, 2, 3, 1] 0
    (by decide) (by decide)
  simpa +decide [readU32LE] using h

/-- C9: a record classified as SysEx (`eventType = 0x80`) with declared
body length `param & 0xFFFFFF = 0` passes the remaining-bytes check
vacuously and hands the empty slice to `to_smf_sysex`, whose unconditional
`data[0]` raises `IndexError`; a whole-file conversion containing such a
record therefore fails rather than emitting or skipping the event. -/
theorem C9_zero_length_sysex (r : List Nat) (init : Nat) (hlen : r.length = 12)
    (hET : r.getD 11 0 &&& 0xBF = 0x80)
    (hzero : readU32LE r 8 &&& 0xFFFFFF = 0) :
    conv_mes_safe r init = .error .indexError ∧
    convert_msd_to_midi
      [0x57, 0x4D, 0x53, 0x44, 0xE0, 0x01, 0, 0, 0, 0, 0, 0, 0, 0, 0, 0,
       1, 0, 0, 0,
       1, 0, 0, 0, 2, 0, 0, 0, 0, 0, 0, 0, 12, 0, 0, 0,
       0, 0, 0, 0, 0, 0, 0, 0, 0, 0, 0, 0x80] = .error .indexError := by
  constructor
  · have htake : List.take 12 r = r := List.take_of_length_le (by omega)
    have hchunk : (r.drop 0).take 12 = r := by rw [List.drop_zero, htake]
    unfold conv_mes_safe
    rw [convMesSafeAux_sysex_empty r 0 init [] (by omega)
      (by rw [hchunk]; exact hET) (by rw [hchunk]; exact hzero)]
  · simp +decide [convert_msd_to_midi, msdMagic, readU32LE, parsePackets,
      buildTrackData, assembleAux, trackStep, processPacket, conv_mes_safe,
      convMesSafeAux, to_smf_sysex, roundUp4]

/-- C9 witness: the zero-length SysEx record `[0,...,0, 0x80]`. -/
theorem C9_zero_length_sysex_witness :
    ([0, 0, 0, 0, 0, 0, 0, 0, 0, 0, 0, 0x80] : List Nat).length = 12 ∧
    ([0, 0, 0, 0, 0, 0, 0, 0, 0, 0, 0, 0x80] : List Nat).getD 11 0 &&& 0xBF = 0x80 ∧
    readU32LE [0, 0, 0, 0, 0, 0, 0, 0, 0, 0, 0, 0x80] 8 &&& 0xFFFFFF = 0 ∧
    conv_mes_safe [0, 0, 0, 0, 0, 0, 0, 0, 0, 0, 0, 0x80] 0 = .error .indexError := by
  refine ⟨by decide, by decide, by decide, ?_⟩
  exact (C9_zero_length_sysex [0, 0, 0, 0, 0, 0, 0, 0, 0, 0, 0, 0x80] 0
    (by decide) (by decide) (by decide)).1

/-- C1 counterexample: a single SysEx-classified record with `dtime = 5`
whose declared body length (10) exceeds the 0 bytes remaining. The claim
says the accumulated delta-time (5) is carried into the next record, but the
code resets it: `deltatime = 0` in the source sits outside the
remaining-bytes check, so the skipped block still zeroes the counter. -/
theorem C1_counterexample :
    conv_mes_safe [5, 0, 0, 0, 0, 0, 0, 0, 10, 0, 0, 0x80] 0 = .ok ([], 0) ∧
    conv_mes_safe [5, 0, 0, 0, 0, 0, 0, 0, 10, 0, 0, 0x80] 0 ≠ .ok ([], 5) := by
  have h : conv_mes_safe [5, 0, 0, 0, 0, 0, 0, 0, 10, 0, 0, 0x80] 0 = .ok ([], 0) := by
    simp +decide [conv_mes_safe, convMesSafeAux, readU32LE]
  refine ⟨h, ?_⟩
  rw [h]
  simp

/-- C1 (amended): the running delta-time is reset to zero every time an
event is actually emitted — short-message, tempo and successful-SysEx
records all append their event with the accumulated delta-time and continue
with delta-time 0 — and otherwise accumulates across no-op records, skipped
unknown blocks and (via the trailing value handed to the next packet's
decode) packet boundaries; but an over-long SysEx record, which emits no
event and advances the cursor only past its own 12 bytes, RESETS the
running delta-time to 0 instead of carrying it as the claim states. -/
theorem C1_delta_time (data : List Nat) (offset deltatime : Nat)
    (events : List (List Nat)) (td : List (List Nat)) (flag : Bool)
    (pkt : Packet) (mes : List Nat) (dtOut : Nat) (ev : List Nat)
    (h12 : offset + 12 ≤ data.length) :
    (((data.drop offset).take 12).getD 11 0 &&& 0xBF = 0 →
      ((data.drop offset).take 12).getD 8 0 ≠ 0xFF →
      convMesSafeAux data offset deltatime events =
        convMesSafeAux data (offset + 12) 0
          (events ++ [to_smf_shortmes
            (List.take (cmd_len_tbl.getD
                ((((data.drop offset).take 12).getD 8 0 >>> 4) &&& 7) 0)
              (List.drop 8 ((data.drop offset).take 12)))
            (deltatime + readU32LE ((data.drop offset).take 12) 0)])) ∧
    (((data.drop offset).take 12).getD 11 0 &&& 0xBF = 1 →
      convMesSafeAux data offset deltatime events =
        convMesSafeAux data (offset + 12) 0
          (events ++ [to_smf_metaevent 0x51
            (some [((data.drop offset).take 12).getD 10 0,
                   ((data.drop offset).take 12).getD 9 0,
                   ((data.drop offset).take 12).getD 8 0])
            (deltatime + readU32LE ((data.drop offset).take 12) 0)])) ∧
    (((data.drop offset).take 12).getD 11 0 &&& 0xBF = 0x80 →
      offset + 12 + (readU32LE ((data.drop offset).take 12) 8 &&& 0xFFFFFF)
          ≤ data.length →
      to_smf_sysex
          ((data.drop (offset + 12)).take
            (readU32LE ((data.drop offset).take 12) 8 &&& 0xFFFFFF))
          (deltatime + readU32LE ((data.drop offset).take 12) 0) = some ev →
      convMesSafeAux data offset deltatime events =
        convMesSafeAux data
          (offset + 12 + roundUp4 (readU32LE ((data.drop offset).take 12) 8 &&& 0xFFFFFF))
          0 (events ++ [ev])) ∧
    (((data.drop offset).take 12).getD 11 0 &&& 0xBF = 0x80 →
      ¬ offset + 12 + (readU32LE ((data.drop offset).take 12) 8 &&& 0xFFFFFF)
          ≤ data.length →
      convMesSafeAux data offset deltatime events =
        convMesSafeAux data (offset + 12) 0 events) ∧
    (¬(((data.drop offset).take 12).getD 11 0 &&& 0xBF = 0 ∧
        ((data.drop offset).take 12).getD 8 0 ≠ 0xFF) →
      ((data.drop offset).take 12).getD 11 0 &&& 0xBF ≠ 1 →
      ((data.drop offset).take 12).getD 11 0 &&& 0xBF ≠ 0x80 →
      ((data.drop offset).take 12).getD 11 0 &&& 0x80 = 0 →
      convMesSafeAux data offset deltatime events =
        convMesSafeAux data (offset + 12)
          (deltatime + readU32LE ((data.drop offset).take 12) 0) events) ∧
    (¬(((data.drop offset).take 12).getD 11 0 &&& 0xBF = 0 ∧
        ((data.drop offset).take 12).getD 8 0 ≠ 0xFF) →
      ((data.drop offset).take 12).getD 11 0 &&& 0xBF ≠ 1 →
      ((data.drop offset).take 12).getD 11 0 &&& 0xBF ≠ 0x80 →
      ((data.drop offset).take 12).getD 11 0 &&& 0x80 ≠ 0 →
      convMesSafeAux data offset deltatime events =
        convMesSafeAux data
          (offset + 12 + roundUp4 (readU32LE ((data.drop offset).take 12) 8 &&& 0xFFFFFF))
          (deltatime + readU32LE ((data.drop offset).take 12) 0) events) ∧
    (pkt.length ≠ 0 →
      conv_mes_safe pkt.payload deltatime = .ok (mes, dtOut) →
      processPacket (td, deltatime, flag) pkt = .ok (td ++ [mes], dtOut, flag)) :=
  ⟨fun hET hC8 => convMesSafeAux_shortmes data offset deltatime events h12 hET hC8,
   fun hET => convMesSafeAux_tempo data offset deltatime events h12 hET,
   fun hET hSuf hev => convMesSafeAux_sysex_ok data offset deltatime events h12 hET hSuf ev hev,
   fun hET hInsuf => convMesSafeAux_sysex_skip data offset deltatime events h12 hET hInsuf,
   fun h0 h1 h80 hHigh => convMesSafeAux_noop data offset deltatime events h12 h0 h1 h80 hHigh,
   fun h0 h1 h80 hHigh => convMesSafeAux_skip_block data offset deltatime events h12 h0 h1 h80 hHigh,
   fun hL hconv => processPacket_carry td deltatime flag pkt mes dtOut hL hconv⟩

/-- C1 witness: a tempo record emits with the accumulated delta-time (7)
and resets it to 0; the over-long SysEx record of the counterexample emits
nothing yet also resets the delta-time to 0 while consuming only its own 12
bytes; and a non-empty packet is decoded from the carried delta-time (3),
whose trailing result becomes the assembler's new running delta-time. -/
theorem C1_delta_time_witness :
    0 + 12 ≤ ([0, 0, 0, 0, 0, 0, 0, 0, 1, 2, 3, 1] : List Nat).length ∧
    convMesSafeAux [0, 0, 0, 0, 0, 0, 0, 0, 1, 2, 3, 1] 0 7 [] =
      convMesSafeAux [0, 0, 0, 0, 0, 0, 0, 0, 1, 2, 3, 1] 12 0
        [to_smf_metaevent 0x51 (some [3, 2, 1]) 7] ∧
    convMesSafeAux [5, 0, 0, 0, 0, 0, 0, 0, 10, 0, 0, 0x80] 0 7 [] =
      convMesSafeAux [5, 0, 0, 0, 0, 0, 0, 0, 10, 0, 0, 0x80] (0 + 12) 0 [] ∧
    processPacket ([], 3, false) ⟨1, 2, 12, [0, 0, 0, 0, 0, 0, 0, 0, 1, 2, 3, 1]⟩ =
      .ok ([[3, 0xFF, 0x51, 3, 3, 2, 1]], 0, false) := by
  refine ⟨by decide, ?_, ?_, ?_⟩
  · have h := (C1_delta_time [0, 0, 0, 0, 0, 0, 0, 0, 1, 2, 3, 1] 0 7 [] [] false
      ⟨0, 0, 0, []⟩ [] 0 [] (by decide)).2.1 (by decide)
    simpa +decide [readU32LE] using h
  · exact (C1_delta_time [5, 0, 0, 0, 0, 0, 0, 0, 10, 0, 0, 0x80] 0 7 [] [] false
      ⟨0, 0, 0, []⟩ [] 0 [] (by decide)).2.2.2.1 (by decide) (by decide)
  · have hconv : conv_mes_safe [0, 0, 0, 0, 0, 0, 0, 0, 1, 2, 3, 1] 3 =
        .ok ([3, 0xFF, 0x51, 3, 3, 2, 1], 0) := by
      simp +decide [conv_mes_safe, convMesSafeAux, readU32LE, cmd_len_tbl,
        to_smf_metaevent, to_smf_ber, berAux]
    exact (C1_delta_time [0, 0, 0, 0, 0, 0, 0, 0, 1, 2, 3, 1] 0 3 [] [] false
      ⟨1, 2, 12, [0, 0, 0, 0, 0, 0, 0, 0, 1, 2, 3, 1]⟩ [3, 0xFF, 0x51, 3, 3, 2, 1] 0 []
      (by decide)).2.2.2.2.2.2 (by decide) hconv

/-! ## Packet directory parsing -/

/-- C2 counterexample: on `sampleOverrun` — valid magic, one directory
entry declaring a 100-byte payload that extends past the end of the input —
`convert_msd_to_midi` does NOT fail: the payload slice is silently truncated
(to empty) and a complete SMF is produced. -/
theorem C2_counterexample :
    convert_msd_to_midi sampleOverrun =
      .ok [0x4D, 0x54, 0x68, 0x64, 0, 0, 0, 6, 0, 0, 0, 1, 0x01, 0xE0,
           0x4D, 0x54, 0x72, 0x6B, 0, 0, 0, 4, 0, 0xFF, 0x2F, 0] := by
  simp +decide [sampleOverrun, convert_msd_to_midi, msdMagic, readU32LE,
    parsePackets, buildTrackData, assembleAux, trackStep, processPacket,
    conv_mes_safe, convMesSafeAux, roundUp4, to_smf, packI16BE, to_smf_chunk,
    packU32BE, to_smf_metaevent, to_smf_ber, berAux]

/-- C2 (amended): a directory entry whose declared payload length extends
past the end of the input does not raise any error: the Python slice
truncates the payload to the bytes actually available (strictly fewer than
declared) and parsing continues at the advanced offset. (`FormatError`-style
failures arise only from bad magic, a truncated header, or a directory entry
whose own 16 bytes extend past the end.) -/
theorem C2_payload_truncated (msd : List Nat) (offset n : Nat)
    (h16 : offset + 16 ≤ msd.length)
    (hover : msd.length < offset + 16 + readU32LE msd (offset + 12)) :
    parsePackets msd offset (n + 1) =
      (parsePackets msd (offset + 16 + roundUp4 (readU32LE msd (offset + 12))) n).map
        (fun rest => ⟨readU32LE msd offset, readU32LE msd (offset + 4),
          readU32LE msd (offset + 12), msd.drop (offset + 16)⟩ :: rest) ∧
    (msd.drop (offset + 16)).length < readU32LE msd (offset + 12) := by
  have hdrop : (msd.drop (offset + 16)).length < readU32LE msd (offset + 12) := by
    rw [List.length_drop]
    omega
  refine ⟨?_, hdrop⟩
  rw [parsePackets, if_pos h16]
  have htake : (msd.drop (offset + 16)).take (readU32LE msd (offset + 12)) =
      msd.drop (offset + 16) :=
    List.take_of_length_le (le_of_lt hdrop)
  simp only [htake]
  cases h : parsePackets msd (offset + 16 + roundUp4 (readU32LE msd (offset + 12))) n <;>
    simp [Except.map]

/-- C2 witness: the truncation theorem instantiated on `sampleOverrun`. -/
theorem C2_payload_truncated_witness :
    20 + 16 ≤ sampleOverrun.length ∧
    sampleOverrun.length < 20 + 16 + readU32LE sampleOverrun (20 + 12) ∧
    (parsePackets sampleOverrun 20 (0 + 1) =
      (parsePackets sampleOverrun
          (20 + 16 + roundUp4 (readU32LE sampleOverrun (20 + 12))) 0).map
        (fun rest => ⟨readU32LE sampleOverrun 20, readU32LE sampleOverrun (20 + 4),
          readU32LE sampleOverrun (20 + 12), sampleOverrun.drop (20 + 16)⟩ :: rest) ∧
      (sampleOverrun.drop (20 + 16)).length < readU32LE sampleOverrun (20 + 12)) :=
  ⟨by decide, by decide, C2_payload_truncated sampleOverrun 20 0 (by decide) (by decide)⟩

/-! ## Track assembly and loop markers -/

/-- C4: whenever a packet's `thisId` equals the last packet's `nextId`, the
loop body first appends a `loopstart` marker meta event (type `0x06`) with
the current running delta-time, resets that delta-time to 0 and sets the
loop flag, before processing the packet's payload; and for the two-packet
chain `[{id 1, next 2}, {id 2, next 1}]` the assembled `track_data` is
exactly: one `loopstart` (before packet 1's events), packet 1's events,
packet 2's events, one `loopend` (after the final packet), end-of-track. -/
theorem C4_loop_markers (td : List (List Nat)) (dt : Nat) (flag : Bool)
    (lnid : Nat) (pkt : Packet)
    (p1 p2 : List Nat) (L1 L2 : Nat) (ev1 ev2 : List Nat) (dt1 dt2 : Nat)
    (hid : pkt.thisId = lnid) (hL1 : L1 ≠ 0) (hL2 : L2 ≠ 0)
    (h1 : conv_mes_safe p1 0 = .ok (ev1, dt1))
    (h2 : conv_mes_safe p2 dt1 = .ok (ev2, dt2)) :
    trackStep (some lnid) (td, dt, flag) pkt =
      processPacket (td ++ [to_smf_metaevent 0x06 (some loopstartText) dt], 0, true) pkt ∧
    buildTrackData [⟨1, 2, L1, p1⟩, ⟨2, 1, L2, p2⟩] =
      .ok [to_smf_metaevent 0x06 (some loopstartText) 0, ev1, ev2,
           to_smf_metaevent 0x06 (some loopendText) dt2,
           to_smf_metaevent 0x2F none 0] := by
  constructor
  · simp [trackStep, hid]
  · simp +decide [buildTrackData, assembleAux, trackStep, processPacket,
      h1, h2, hL1, hL2]

/-- C4 witness: the two-packet chain with a single tempo record in each
packet payload. -/
theorem C4_loop_markers_witness :
    (⟨1, 5, 12, []⟩ : Packet).thisId = 1 ∧ (12 : Nat) ≠ 0 ∧
    conv_mes_safe [0, 0, 0, 0, 0, 0, 0, 0, 1, 2, 3, 1] 0 =
      .ok ([0, 0xFF, 0x51, 3, 3, 2, 1], 0) ∧
    (trackStep (some 1) ([], 0, false) ⟨1, 5, 12, []⟩ =
      processPacket ([to_smf_metaevent 0x06 (some loopstartText) 0], 0, true)
        ⟨1, 5, 12, []⟩ ∧
     buildTrackData
        [⟨1, 2, 12, [0, 0, 0, 0, 0, 0, 0, 0, 1, 2, 3, 1]⟩,
         ⟨2, 1, 12, [0, 0, 0, 0, 0, 0, 0, 0, 1, 2, 3, 1]⟩] =
      .ok [to_smf_metaevent 0x06 (some loopstartText) 0,
           [0, 0xFF, 0x51, 3, 3, 2, 1], [0, 0xFF, 0x51, 3, 3, 2, 1],
           to_smf_metaevent 0x06 (some loopendText) 0,
           to_smf_metaevent 0x2F none 0]) := by
  have hconv : conv_mes_safe [0, 0, 0, 0, 0, 0, 0, 0, 1, 2, 3, 1] 0 =
      .ok ([0, 0xFF, 0x51, 3, 3, 2, 1], 0) := by
    simp +decide [conv_mes_safe, convMesSafeAux, readU32LE, cmd_len_tbl,
      to_smf_metaevent, to_smf_ber, berAux]
  refine ⟨rfl, by decide, hconv, ?_⟩
  exact C4_loop_markers [] 0 false 1 ⟨1, 5, 12, []⟩ _ _ 12 12 _ _ 0 0
    rfl (by decide) (by decide) hconv hconv

/-! ## SMF header framing -/

/-- The only way `to_smf` succeeds on a single track: the timebase fits in a
signed 16-bit value, and the output is the `MThd` chunk (format 0, one
track, big-endian timebase) followed by the `MTrk` chunk. -/
lemma to_smf_single_ok (t : List Nat) (tb : Nat) (out : List Nat)
    (h : to_smf [t] tb = .ok out) :
    tb ≤ 0x7FFF ∧
    out = to_smf_chunk [0x4D, 0x54, 0x68, 0x64] [0, 0, 0, 1, tb / 256, tb % 256] ++
      to_smf_chunk [0x4D, 0x54, 0x72, 0x6B] t := by
  by_cases htb : tb ≤ 0x7FFF
  · refine ⟨htb, ?_⟩
    unfold to_smf at h
    simp +decide [packI16BE, htb] at h
    exact h.symm
  · exfalso
    unfold to_smf at h
    simp +decide [packI16BE, htb] at h

/-- `to_smf` on a single track succeeds exactly when the timebase fits in a
signed 16-bit value. -/
lemma to_smf_single_ok_iff (t : List Nat) (tb : Nat) :
    (∃ o, to_smf [t] tb = .ok o) ↔ tb ≤ 0x7FFF := by
  constructor
  · rintro ⟨o, ho⟩
    exact (to_smf_single_ok t tb o ho).1
  · intro htb
    refine ⟨to_smf_chunk [0x4D, 0x54, 0x68, 0x64] [0, 0, 0, 1, tb / 256, tb % 256] ++
      to_smf_chunk [0x4D, 0x54, 0x72, 0x6B] t, ?_⟩
    unfold to_smf
    simp +decide [packI16BE, htb]

/-- C5 counterexample: timebase `0x8000` is readable by the parser (a
little-endian u32) but `struct.pack('>h', 0x8000)` raises, so conversion
fails — refuting "the header encoding succeeds for every timebase value the
parser can read". -/
theorem C5_counterexample :
    convert_msd_to_midi sampleBadTimebase = .error .packError := by
  simp +decide [sampleBadTimebase, convert_msd_to_midi, msdMagic, readU32LE,
    parsePackets, buildTrackData, assembleAux, to_smf, packI16BE,
    to_smf_metaevent, to_smf_ber, berAux]

/-- C5 (amended): every successful conversion starts with an `MThd` chunk
whose 6-byte body is `format = 0`, `numTracks = 1` and the parsed timebase,
each as a big-endian 16-bit value; but the header encoding succeeds exactly
for timebases at most `0x7FFF` (the field is packed as a SIGNED 16-bit
value), not for every timebase the parser can read. -/
theorem C5_header_format (msd out : List Nat)
    (hok : convert_msd_to_midi msd = .ok out) :
    readU32LE msd 4 ≤ 0x7FFF ∧
    out.take 14 = [0x4D, 0x54, 0x68, 0x64, 0, 0, 0, 6, 0, 0, 0, 1,
      readU32LE msd 4 / 256, readU32LE msd 4 % 256] ∧
    (∀ t tb, (∃ o, to_smf [t] tb = .ok o) ↔ tb ≤ 0x7FFF) := by
  have hts : ∃ td, to_smf [td] (readU32LE msd 4) = .ok out := by
    simp only [convert_msd_to_midi] at hok
    by_cases h1 : msd.take 4 ≠ msdMagic
    · rw [if_pos h1] at hok
      simp at hok
    · rw [if_neg h1] at hok
      by_cases h2 : 4 + 4 ≤ msd.length
      · rw [if_pos h2] at hok
        by_cases h3 : 0x10 + 4 ≤ msd.length
        · rw [if_pos h3] at hok
          cases hp : parsePackets msd 0x14 (readU32LE msd 0x10) with
          | error e => rw [hp] at hok; simp at hok
          | ok packets =>
            rw [hp] at hok
            dsimp only at hok
            cases hb : buildTrackData packets with
            | error e => rw [hb] at hok; simp at hok
            | ok td =>
              rw [hb] at hok
              exact ⟨td.flatten, hok⟩
        · rw [if_neg h3] at hok
          simp at hok
      · rw [if_neg h2] at hok
        simp at hok
  obtain ⟨td, htd⟩ := hts
  obtain ⟨htb, hout⟩ := to_smf_single_ok td (readU32LE msd 4) out htd
  refine ⟨htb, ?_, to_smf_single_ok_iff⟩
  rw [hout]
  simp +decide [to_smf_chunk, packU32BE]

/-- C5 witness: the header theorem instantiated on `sampleEmptyDir`
(timebase 480). -/
theorem C5_header_format_witness :
    convert_msd_to_midi sampleEmptyDir =
      .ok [0x4D, 0x54, 0x68, 0x64, 0, 0, 0, 6, 0, 0, 0, 1, 0x01, 0xE0,
           0x4D, 0x54, 0x72, 0x6B, 0, 0, 0, 4, 0, 0xFF, 0x2F, 0] ∧
    (readU32LE sampleEmptyDir 4 ≤ 0x7FFF ∧
     ([0x4D, 0x54, 0x68, 0x64, 0, 0, 0, 6, 0, 0, 0, 1, 0x01, 0xE0,
       0x4D, 0x54, 0x72, 0x6B, 0, 0, 0, 4, 0, 0xFF, 0x2F, 0] : List Nat).take 14 =
       [0x4D, 0x54, 0x68, 0x64, 0, 0, 0, 6, 0, 0, 0, 1,
        readU32LE sampleEmptyDir 4 / 256, readU32LE sampleEmptyDir 4 % 256] ∧
     (∀ t tb, (∃ o, to_smf [t] tb = .ok o) ↔ tb ≤ 0x7FFF)) := by
  have h : convert_msd_to_midi sampleEmptyDir =
      .ok [0x4D, 0x54, 0x68, 0x64, 0, 0, 0, 6, 0, 0, 0, 1, 0x01, 0xE0,
           0x4D, 0x54, 0x72, 0x6B, 0, 0, 0, 4, 0, 0xFF, 0x2F, 0] := by
    simp +decide [sampleEmptyDir, convert_msd_to_midi, msdMagic, readU32LE,
      parsePackets, buildTrackData, assembleAux, to_smf, packI16BE,
      to_smf_chunk, packU32BE, to_smf_metaevent, to_smf_ber, berAux]
  exact ⟨h, C5_header_format sampleEmptyDir _ h⟩

/-! ## SysEx framing -/

/-- C7: for every delta-time and non-empty `data`, the SysEx encoder
returns `vlq(d) || 0xF0 || vlq(len(body)) || body`, where `body` is `data`
with its first byte removed when that byte is `0xF0` and `data` unchanged
otherwise; in particular a leading `0xF0` is absorbed into the framing. -/
theorem C7_sysex_framing (deltatime : Nat) (data : List Nat) (hne : data ≠ []) :
    to_smf_sysex data deltatime =
      some (to_smf_ber deltatime ++ [0xF0] ++
        to_smf_ber (if data.headD 0 = 0xF0 then data.tail else data).length ++
        (if data.headD 0 = 0xF0 then data.tail else data)) ∧
    to_smf_sysex [0xF0, 0x01, 0x02] 0 = to_smf_sysex [0x01, 0x02] 0 := by
  obtain ⟨b, rest, rfl⟩ := List.exists_cons_of_ne_nil hne
  refine ⟨?_, rfl⟩
  by_cases hb : b = 0xF0 <;> simp [to_smf_sysex, hb]

/-- C7 witness: `sysEx(0, [0xF0, 0x01, 0x02])`. -/
theorem C7_sysex_framing_witness :
    ([0xF0, 0x01, 0x02] : List Nat) ≠ [] ∧
    (to_smf_sysex [0xF0, 0x01, 0x02] 0 =
      some (to_smf_ber 0 ++ [0xF0] ++
        to_smf_ber (if ([0xF0, 0x01, 0x02] : List Nat).headD 0 = 0xF0 then
            ([0xF0, 0x01, 0x02] : List Nat).tail else [0xF0, 0x01, 0x02]).length ++
        (if ([0xF0, 0x01, 0x02] : List Nat).headD 0 = 0xF0 then
            ([0xF0, 0x01, 0x02] : List Nat).tail else [0xF0, 0x01, 0x02])) ∧
     to_smf_sysex [0xF0, 0x01, 0x02] 0 = to_smf_sysex [0x01, 0x02] 0) :=
  ⟨by simp, C7_sysex_framing 0 [0xF0, 0x01, 0x02] (by simp)⟩

/-! ## Determinism and the empty packet directory -/

/-- C8: conversion is deterministic — the embedding threads all state (the
running delta-time, the track list, the loop flag) explicitly, so the output
is a function of the input bytes alone: equal inputs give byte-identical
outputs, with no hidden timestamp, randomness or cross-call state. -/
theorem C8_deterministic (msd1 msd2 : List Nat) (h : msd1 = msd2) :
    convert_msd_to_midi msd1 = convert_msd_to_midi msd2 := by
  rw [h]

/-- C8 witness: converting `sampleOverrun` twice gives the same bytes. -/
theorem C8_deterministic_witness :
    sampleOverrun = sampleOverrun ∧
    convert_msd_to_midi sampleOverrun = convert_msd_to_midi sampleOverrun :=
  ⟨rfl, C8_deterministic sampleOverrun sampleOverrun rfl⟩

/-- C10: an input of at least 20 bytes with valid magic, `packetCount = 0`
and a timebase the header encoder accepts converts successfully to an SMF
whose single `MTrk` chunk body is exactly `00 FF 2F 00` (a zero-delta
end-of-track meta event, no loop markers). The `packets[-1]` lookup is
inside the per-packet loop body, which never runs on the empty packet list
(in the model, the fold over `[]` never calls `trackStep`, whose `none`
case is the `IndexError` such a lookup would raise). -/
theorem C10_empty_packet_list (msd : List Nat)
    (hmagic : msd.take 4 = msdMagic) (hlen : 20 ≤ msd.length)
    (hcount : readU32LE msd 0x10 = 0) (htb : readU32LE msd 4 ≤ 0x7FFF) :
    convert_msd_to_midi msd =
      .ok [0x4D, 0x54, 0x68, 0x64, 0, 0, 0, 6, 0, 0, 0, 1,
           readU32LE msd 4 / 256, readU32LE msd 4 % 256,
           0x4D, 0x54, 0x72, 0x6B, 0, 0, 0, 4, 0, 0xFF, 0x2F, 0] := by
  simp only [convert_msd_to_midi]
  rw [if_neg (not_not_intro hmagic), if_pos (show 4 + 4 ≤ msd.length by omega),
    if_pos (show 0x10 + 4 ≤ msd.length by omega), hcount]
  simp +decide [parsePackets, buildTrackData, assembleAux, to_smf_metaevent,
    to_smf_ber, berAux, to_smf, packI16BE, htb, to_smf_chunk, packU32BE]

/-- C10 witness: `sampleEmptyDir` (timebase 480, packet count 0). -/
theorem C10_empty_packet_list_witness :
    sampleEmptyDir.take 4 = msdMagic ∧ 20 ≤ sampleEmptyDir.length ∧
    readU32LE sampleEmptyDir 0x10 = 0 ∧ readU32LE sampleEmptyDir 4 ≤ 0x7FFF ∧
    convert_msd_to_midi sampleEmptyDir =
      .ok [0x4D, 0x54, 0x68, 0x64, 0, 0, 0, 6, 0, 0, 0, 1,
           readU32LE sampleEmptyDir 4 / 256, readU32LE sampleEmptyDir 4 % 256,
           0x4D, 0x54, 0x72, 0x6B, 0, 0, 0, 4, 0, 0xFF, 0x2F, 0] :=
  ⟨by decide, by decide, by decide, by decide,
   C10_empty_packet_list sampleEmptyDir (by decide) (by decide) (by decide) (by decide)⟩

end Msd2Smf
